import Mathlib

/-!
Shallow embedding of the core of the `ts_nightreport` REST service: the
`nightreport` table (`create_tables.py`), the four row-level endpoint
operations (`add_nightreport`, `get_nightreport`, `delete_nightreport`,
`edit_nightreport`) and the filter/sort/paginate query
(`find_nightreports`).

Modelling conventions: UUID primary keys are natural numbers, TAI datetimes
are integers, the table is a list of rows.  The computed column
`is_valid` (`sa.Computed("date_invalidated is null")`) is stored in the row
and refreshed by `computeIsValid` on every write path, exactly as the
database engine refreshes a computed column.
-/

/-- Tri-state value of the `is_valid` query parameter of `find_nightreports`
(class `TriState` in `find_nightreports.py`). -/
inductive TriState where
  | either
  | true
  | false
deriving DecidableEq, Repr

/-- Error outcomes surfaced by the endpoint handlers: 404 from an absent id,
400 from an invalid `order_by` field, 422 from FastAPI parameter validation,
500 from a failed insert. -/
inductive HttpErr where
  | notFound
  | badRequest
  | validation
  | internal
deriving DecidableEq, Repr

deriving instance DecidableEq for Except

/-- One row of the `nightreport` table (`create_nightreport_table`).
Nullable columns are `Option`s.  `is_valid` is the stored value of the
computed column. -/
structure Report where
  id : Nat
  site_id : String
  telescope : Option String
  day_obs : Int
  summary : String
  telescope_status : Option String
  weather : Option String
  maintel_summary : Option String
  auxtel_summary : Option String
  confluence_url : String
  user_id : String
  user_agent : String
  date_added : Int
  date_sent : Option Int
  is_valid : Bool
  date_invalidated : Option Int
  parent_id : Option Nat
  observers_crew : List String
deriving DecidableEq, Repr

/-- Refresh of the computed column `is_valid`, i.e.
`sa.Computed("date_invalidated is null")`: the database recomputes it on
every insert and update. -/
def computeIsValid (r : Report) : Report :=
  { r with is_valid := r.date_invalidated.isNone }

/-- Body parameters of `POST /reports` (`add_nightreport`); all are required
except `observers_crew`, which defaults to the empty list. -/
structure AddParams where
  day_obs : Int
  summary : String
  weather : String
  maintel_summary : String
  auxtel_summary : String
  confluence_url : String
  user_id : String
  user_agent : String
  observers_crew : List String := []
deriving DecidableEq, Repr

/-- Embedding of `add_nightreport`: insert one row whose `site_id` is the
server's configured site id, whose `date_added` is the current TAI time and
whose remaining columns come from the request body; the columns not listed
in the INSERT (`telescope`, `telescope_status`, `date_sent`,
`date_invalidated`, `parent_id`) take their NULL default and `is_valid` is
computed.  `freshId` stands for the fresh UUID primary key.  Returns the
stored row and the new table state. -/
def add_nightreport (siteId : String) (now : Int) (freshId : Nat)
    (p : AddParams) (db : List Report) : Report × List Report :=
  let r := computeIsValid {
    id := freshId
    site_id := siteId
    telescope := none
    day_obs := p.day_obs
    summary := p.summary
    telescope_status := none
    weather := some p.weather
    maintel_summary := some p.maintel_summary
    auxtel_summary := some p.auxtel_summary
    confluence_url := p.confluence_url
    user_id := p.user_id
    user_agent := p.user_agent
    date_added := now
    date_sent := none
    is_valid := Bool.true
    date_invalidated := none
    parent_id := none
    observers_crew := p.observers_crew }
  (r, db ++ [r])

/-- Embedding of `get_nightreport`: point lookup by id, 404 when absent. -/
def get_nightreport (id : Nat) (db : List Report) : Except HttpErr Report :=
  match db.find? (fun r => r.id == id) with
  | some r => .ok r
  | none => .error .notFound

/-- Row transformation of the UPDATE issued by `delete_nightreport`:
`date_invalidated = coalesce(date_invalidated, current_tai)` on the rows
matching `id`, with the computed column refreshed. -/
def applyDelete (id : Nat) (now : Int) (r : Report) : Report :=
  if r.id == id then
    computeIsValid { r with date_invalidated := some (r.date_invalidated.getD now) }
  else r

/-- Embedding of `delete_nightreport`: run the UPDATE, then report 404 when
it matched zero rows (`result.rowcount == 0`).  Returns the response
together with the new table state. -/
def delete_nightreport (id : Nat) (now : Int) (db : List Report) :
    Except HttpErr Unit × List Report :=
  let db2 := db.map (applyDelete id now)
  if db.any (fun r => r.id == id) then (.ok (), db2) else (.error .notFound, db2)

/-- Body parameters of `PATCH /reports/{id}` (`edit_nightreport`); each is
optional and only the supplied ones override the parent's columns. -/
structure EditParams where
  telescope : Option String := none
  day_obs : Option Int := none
  summary : Option String := none
  telescope_status : Option String := none
  confluence_url : Option String := none
  site_id : Option String := none
  user_id : Option String := none
  user_agent : Option String := none
deriving DecidableEq, Repr

/-- Override of a nullable column by a request value when one was supplied,
else keep the parent's value. -/
def overrideOpt (supplied old : Option α) : Option α :=
  match supplied with
  | some v => some v
  | none => old

/-- Row transformation of the parent-invalidation UPDATE in
`edit_nightreport`: set `date_invalidated` to the current time on the rows
matching the parent id, refreshing the computed column. -/
def applyInvalidate (id : Nat) (now : Int) (r : Report) : Report :=
  if r.id == id then computeIsValid { r with date_invalidated := some now } else r

/-- Child row inserted by `edit_nightreport`: the handler copies the
parent's row data, deletes `id`, `is_valid` and `date_invalidated`, applies
the supplied body fields, forces `site_id` to the server's configured site
id and sets `parent_id` to the parent's id.  Note that only `id`,
`is_valid` and `date_invalidated` are deleted from the copied data, so
`date_added` (and `date_sent`, `weather`, `maintel_summary`,
`auxtel_summary`, `observers_crew`) are copied from the parent row, and the
body's `site_id` is never consulted. -/
def editChild (siteId : String) (freshId : Nat) (id : Nat) (p : EditParams)
    (parent : Report) : Report :=
  computeIsValid {
    id := freshId
    site_id := siteId
    telescope := overrideOpt p.telescope parent.telescope
    day_obs := p.day_obs.getD parent.day_obs
    summary := p.summary.getD parent.summary
    telescope_status := overrideOpt p.telescope_status parent.telescope_status
    weather := parent.weather
    maintel_summary := parent.maintel_summary
    auxtel_summary := parent.auxtel_summary
    confluence_url := p.confluence_url.getD parent.confluence_url
    user_id := p.user_id.getD parent.user_id
    user_agent := p.user_agent.getD parent.user_agent
    date_added := parent.date_added
    date_sent := parent.date_sent
    is_valid := Bool.true
    date_invalidated := none
    parent_id := some id
    observers_crew := parent.observers_crew }

/-- Embedding of `edit_nightreport`: read the parent row (404 when absent),
insert the child row built by `editChild`, set the parent's
`date_invalidated` to the current time, and return the re-read child row
together with the new table state. -/
def edit_nightreport (siteId : String) (now : Int) (freshId : Nat) (id : Nat)
    (p : EditParams) (db : List Report) : Except HttpErr (Report × List Report) :=
  match db.find? (fun r => r.id == id) with
  | none => .error .notFound
  | some parent =>
    let child := editChild siteId freshId id p parent
    let db2 := (db ++ [child]).map (applyInvalidate id now)
    match db2.find? (fun r => r.id == freshId) with
    | some row => .ok (row, db2)
    | none => .error .internal

/-- Does `sub` occur as a leading block of the character list `s`? -/
def listHasPre : List Char → List Char → Bool
  | _, [] => Bool.true
  | [], _ :: _ => Bool.false
  | a :: as, b :: bs => a == b && listHasPre as bs

/-- Does `sub` occur as a contiguous block somewhere inside the second
character list? -/
def listContainsSub (sub : List Char) : List Char → Bool
  | [] => listHasPre [] sub
  | c :: cs => listHasPre (c :: cs) sub || listContainsSub sub cs

/-- SQL `column.contains(value)` on a text column. -/
def strContains (s sub : String) : Bool :=
  listContainsSub sub.data s.data

/-- SQL `column.contains(value)` on a nullable text column: a NULL column
value satisfies no condition. -/
def optContains (c : Option String) (sub : String) : Bool :=
  match c with
  | none => Bool.false
  | some s => strContains s sub

/-- SQL `column >= value` on a nullable column: NULL satisfies nothing. -/
def optGe (c : Option Int) (v : Int) : Bool :=
  match c with
  | none => Bool.false
  | some x => decide (x ≥ v)

/-- SQL `column < value` on a nullable column: NULL satisfies nothing. -/
def optLt (c : Option Int) (v : Int) : Bool :=
  match c with
  | none => Bool.false
  | some x => decide (x < v)

/-- Query parameters of `GET /reports` (`find_nightreports`), with the
defaults declared in the FastAPI signature. -/
structure FindQuery where
  site_ids : Option (List String) := none
  summary : Option String := none
  weather : Option String := none
  maintel_summary : Option String := none
  auxtel_summary : Option String := none
  user_ids : Option (List String) := none
  user_agents : Option (List String) := none
  min_day_obs : Option Int := none
  max_day_obs : Option Int := none
  min_date_added : Option Int := none
  max_date_added : Option Int := none
  min_date_sent : Option Int := none
  max_date_sent : Option Int := none
  is_valid : TriState := TriState.true
  has_parent_id : Option Bool := none
  order_by : Option (List String) := none
  offset : Int := 0
  limit : Int := 50
deriving DecidableEq, Repr

/-- Conjunction of the WHERE conditions that `find_nightreports` builds for
its supplied parameters, evaluated on one row, in the order of
`select_arg_names`. -/
def reportMatches (q : FindQuery) (r : Report) : Bool :=
  (match q.site_ids with | none => Bool.true | some l => l.contains r.site_id) &&
  (match q.summary with | none => Bool.true | some v => strContains r.summary v) &&
  (match q.weather with | none => Bool.true | some v => optContains r.weather v) &&
  (match q.maintel_summary with | none => Bool.true | some v => optContains r.maintel_summary v) &&
  (match q.auxtel_summary with | none => Bool.true | some v => optContains r.auxtel_summary v) &&
  (match q.user_ids with | none => Bool.true | some l => l.contains r.user_id) &&
  (match q.user_agents with | none => Bool.true | some l => l.contains r.user_agent) &&
  (match q.min_day_obs with | none => Bool.true | some v => decide (r.day_obs ≥ v)) &&
  (match q.max_day_obs with | none => Bool.true | some v => decide (r.day_obs < v)) &&
  (match q.min_date_added with | none => Bool.true | some v => decide (r.date_added ≥ v)) &&
  (match q.max_date_added with | none => Bool.true | some v => decide (r.date_added < v)) &&
  (match q.min_date_sent with | none => Bool.true | some v => optGe r.date_sent v) &&
  (match q.max_date_sent with | none => Bool.true | some v => optLt r.date_sent v) &&
  (match q.is_valid with
    | TriState.either => Bool.true
    | TriState.true => r.is_valid == Bool.true
    | TriState.false => r.is_valid == Bool.false) &&
  (match q.has_parent_id with
    | none => Bool.true
    | some b => if b then r.parent_id.isSome else r.parent_id.isNone)

/-- Field names of the `NightReport` response model
(`nightreport.NIGHTREPORT_FIELDS`). -/
def NIGHTREPORT_FIELDS : List String :=
  ["id", "site_id", "telescope", "day_obs", "summary", "telescope_status",
   "confluence_url", "user_id", "user_agent", "date_added", "date_sent",
   "is_valid", "date_invalidated", "parent_id"]

/-- Valid `order_by` items: every field name, plain and with a leading "-"
(`nightreport.NIGHTREPORT_ORDER_BY_VALUES`). -/
def NIGHTREPORT_ORDER_BY_VALUES : List String :=
  (NIGHTREPORT_FIELDS.map (fun f => [f, "-" ++ f])).flatten

/-- Validation and implicit-id step of `find_nightreports` for `order_by`:
a missing list becomes `["id"]`; a list holding an unknown item is a 400;
a list mentioning neither "id" nor "-id" gets "id" appended so the order is
repeatable. -/
def computeOrderBy (order_by : Option (List String)) :
    Except HttpErr (List String) :=
  match order_by with
  | none => .ok ["id"]
  | some ob =>
    if ob.any (fun f => decide (¬ f ∈ NIGHTREPORT_ORDER_BY_VALUES)) then
      .error .badRequest
    else if ob.any (fun f => decide (f = "id" ∨ f = "-id")) then .ok ob
    else .ok (ob ++ ["id"])

/-- One ORDER BY column: field name and direction. -/
structure OrderKey where
  field : String
  desc : Bool
deriving DecidableEq, Repr

/-- First-character test of `item.startswith("-")`, on the character list so
that it evaluates by reduction. -/
def strStartsWithDash (s : String) : Bool :=
  match s.data with
  | [] => Bool.false
  | c :: _ => c == '-'

/-- Python slice `item[1:]`, on the character list. -/
def strDropOne (s : String) : String :=
  ⟨s.data.drop 1⟩

/-- Parse of one `order_by` item: a leading "-" selects descending order. -/
def parseOrderKey (s : String) : OrderKey :=
  if strStartsWithDash s then { field := strDropOne s, desc := Bool.true }
  else { field := s, desc := Bool.false }

/-- Value of one report column as the database sorts it: an integer, a
string, a boolean, or SQL NULL. -/
inductive FieldVal where
  | fint : Int → FieldVal
  | fstr : String → FieldVal
  | fbool : Bool → FieldVal
  | fnull : FieldVal
deriving DecidableEq, Repr

/-- Constructor rank; `fnull` ranks above every data constructor, so NULL
sorts after all non-null values, matching PostgreSQL's default NULLS LAST
placement for ascending keys. -/
def fvRank : FieldVal → Nat
  | .fint _ => 0
  | .fstr _ => 1
  | .fbool _ => 2
  | .fnull => 3

/-- Strict comparison of column values: the value order inside a
constructor, the rank order across constructors. -/
def fvltB : FieldVal → FieldVal → Bool
  | .fint a, .fint b => decide (a < b)
  | .fstr a, .fstr b => decide (a < b)
  | .fbool a, .fbool b => decide (a < b)
  | x, y => decide (fvRank x < fvRank y)

/-- Three-way comparison of column values. -/
def cmpFV (a b : FieldVal) : Ordering :=
  if fvltB a b then .lt else if a = b then .eq else .gt

/-- Column value extracted from a row for an ORDER BY field name. -/
def fieldVal (name : String) (r : Report) : FieldVal :=
  match name with
  | "id" => .fint (Int.ofNat r.id)
  | "site_id" => .fstr r.site_id
  | "telescope" =>
      match r.telescope with | none => .fnull | some v => .fstr v
  | "day_obs" => .fint r.day_obs
  | "summary" => .fstr r.summary
  | "telescope_status" =>
      match r.telescope_status with | none => .fnull | some v => .fstr v
  | "confluence_url" => .fstr r.confluence_url
  | "user_id" => .fstr r.user_id
  | "user_agent" => .fstr r.user_agent
  | "date_added" => .fint r.date_added
  | "date_sent" =>
      match r.date_sent with | none => .fnull | some v => .fint v
  | "is_valid" => .fbool r.is_valid
  | "date_invalidated" =>
      match r.date_invalidated with | none => .fnull | some v => .fint v
  | "parent_id" =>
      match r.parent_id with | none => .fnull | some v => .fint (Int.ofNat v)
  | _ => .fnull

/-- Three-way comparison of two rows on one ORDER BY column; a descending
key swaps the operands (`sa.sql.desc`), which also reproduces PostgreSQL's
default NULLS FIRST placement for descending keys. -/
def cmpKey (k : OrderKey) (r1 r2 : Report) : Ordering :=
  if k.desc then cmpFV (fieldVal k.field r2) (fieldVal k.field r1)
  else cmpFV (fieldVal k.field r1) (fieldVal k.field r2)

/-- Lexicographic comparison of two rows over an ORDER BY column list. -/
def cmpKeys : List OrderKey → Report → Report → Ordering
  | [], _, _ => .eq
  | k :: ks, r1, r2 => (cmpKey k r1 r2).then (cmpKeys ks r1 r2)

/-- Row order realized by the ORDER BY clause: not-greater under the
lexicographic comparison. -/
def reportLE (ks : List OrderKey) (r1 r2 : Report) : Prop :=
  cmpKeys ks r1 r2 ≠ .gt

instance (ks : List OrderKey) : DecidableRel (reportLE ks) := fun r1 r2 => by
  unfold reportLE
  infer_instance

/-- Embedding of `find_nightreports`: FastAPI validates `offset` with `ge=0`
and `limit` with `gt=1`; the handler then validates `order_by`, appends the
implicit `id` tie-break, and runs one SELECT that filters, orders and slices
the table. -/
def find_nightreports (q : FindQuery) (db : List Report) :
    Except HttpErr (List Report) :=
  if ¬ (q.offset ≥ 0 ∧ q.limit > 1) then .error .validation
  else
    match computeOrderBy q.order_by with
    | .error e => .error e
    | .ok ob =>
      let keys := ob.map parseOrderKey
      let rows := List.insertionSort (reportLE keys) (db.filter (reportMatches q))
      .ok ((rows.drop q.offset.toNat).take q.limit.toNat)

theorem fvltB_irrefl (a : FieldVal) : fvltB a a = Bool.false := by
  cases a <;> simp [fvltB]

theorem fvltB_ne {a b : FieldVal} (h : fvltB a b = Bool.true) : a ≠ b := by
  intro he
  subst he
  simp [fvltB_irrefl] at h

theorem fvltB_asymm {a b : FieldVal} (h : fvltB a b = Bool.true) :
    fvltB b a = Bool.false := by
  cases a <;> cases b <;> simp_all [fvltB, fvRank] <;>
    first
    | omega
    | exact le_of_lt h

theorem fvltB_trans {a b c : FieldVal} (h1 : fvltB a b = Bool.true)
    (h2 : fvltB b c = Bool.true) : fvltB a c = Bool.true := by
  cases a <;> cases b <;> cases c <;> simp_all [fvltB, fvRank] <;>
    first
    | omega
    | exact lt_trans h1 h2

theorem fvltB_total (a b : FieldVal) :
    fvltB a b = Bool.true ∨ a = b ∨ fvltB b a = Bool.true := by
  cases a <;> cases b <;>
    first
    | exact Or.inl rfl
    | exact Or.inr (Or.inl rfl)
    | exact Or.inr (Or.inr rfl)
    | (rename_i x y
       rcases lt_trichotomy x y with h | h | h
       · exact Or.inl (by simp [fvltB, h])
       · exact Or.inr (Or.inl (by rw [h]))
       · exact Or.inr (Or.inr (by simp [fvltB, h])))

theorem cmpFV_eq_iff {a b : FieldVal} : cmpFV a b = .eq ↔ a = b := by
  unfold cmpFV
  split_ifs with h1 h2
  · simp [fvltB_ne h1]
  · simp [h2]
  · simp [h2]

theorem cmpFV_lt_iff {a b : FieldVal} : cmpFV a b = .lt ↔ fvltB a b = Bool.true := by
  unfold cmpFV
  split_ifs with h1 h2 <;> simp_all

theorem cmpFV_gt_iff {a b : FieldVal} : cmpFV a b = .gt ↔ fvltB b a = Bool.true := by
  unfold cmpFV
  split_ifs with h1 h2
  · simp [fvltB_asymm h1]
  · subst h2
    simp [fvltB_irrefl]
  · simp only [Bool.not_eq_true] at h1
    rcases fvltB_total a b with h | h | h
    · rw [h1] at h
      simp at h
    · exact absurd h h2
    · simp [h]

theorem cmpFV_swap (a b : FieldVal) : cmpFV a b = (cmpFV b a).swap := by
  cases hc : cmpFV b a
  · have h := cmpFV_lt_iff.mp hc
    rw [cmpFV_gt_iff.mpr h]
    rfl
  · have h := cmpFV_eq_iff.mp hc
    subst h
    rw [cmpFV_eq_iff.mpr rfl]
    rfl
  · have h := cmpFV_gt_iff.mp hc
    rw [cmpFV_lt_iff.mpr h]
    rfl

theorem cmpKey_swap (k : OrderKey) (r1 r2 : Report) :
    cmpKey k r1 r2 = (cmpKey k r2 r1).swap := by
  unfold cmpKey
  split_ifs <;> exact cmpFV_swap _ _

theorem cmpKey_eq_iff {k : OrderKey} {r1 r2 : Report} :
    cmpKey k r1 r2 = .eq ↔ fieldVal k.field r1 = fieldVal k.field r2 := by
  unfold cmpKey
  split_ifs
  · rw [cmpFV_eq_iff]
    exact eq_comm
  · exact cmpFV_eq_iff

theorem cmpKey_lt_trans {k : OrderKey} {r1 r2 r3 : Report}
    (h1 : cmpKey k r1 r2 = .lt) (h2 : cmpKey k r2 r3 = .lt) :
    cmpKey k r1 r3 = .lt := by
  unfold cmpKey at *
  split_ifs at *
  · exact cmpFV_lt_iff.mpr
      (fvltB_trans (cmpFV_lt_iff.mp h2) (cmpFV_lt_iff.mp h1))
  · exact cmpFV_lt_iff.mpr
      (fvltB_trans (cmpFV_lt_iff.mp h1) (cmpFV_lt_iff.mp h2))

theorem cmpKey_congr_left {k : OrderKey} {r1 r2 r3 : Report}
    (h : fieldVal k.field r1 = fieldVal k.field r2) :
    cmpKey k r1 r3 = cmpKey k r2 r3 := by
  unfold cmpKey
  rw [h]

theorem cmpKey_congr_right {k : OrderKey} {r1 r2 r3 : Report}
    (h : fieldVal k.field r2 = fieldVal k.field r3) :
    cmpKey k r1 r2 = cmpKey k r1 r3 := by
  unfold cmpKey
  rw [h]

theorem cmpKeys_swap (ks : List OrderKey) (r1 r2 : Report) :
    cmpKeys ks r1 r2 = (cmpKeys ks r2 r1).swap := by
  induction ks with
  | nil => rfl
  | cons k ks ih =>
      simp only [cmpKeys]
      rw [cmpKey_swap, ih]
      cases cmpKey k r2 r1 <;> simp [Ordering.then, Ordering.swap]

theorem cmpKeys_trans_ne_gt {ks : List OrderKey} {r1 r2 r3 : Report}
    (h12 : cmpKeys ks r1 r2 ≠ .gt) (h23 : cmpKeys ks r2 r3 ≠ .gt) :
    cmpKeys ks r1 r3 ≠ .gt := by
  induction ks with
  | nil => simp [cmpKeys]
  | cons k ks ih =>
      simp only [cmpKeys] at *
      cases h1 : cmpKey k r1 r2 with
      | gt =>
          rw [h1] at h12
          simp [Ordering.then] at h12
      | lt =>
          cases h2 : cmpKey k r2 r3 with
          | gt =>
              rw [h2] at h23
              simp [Ordering.then] at h23
          | lt =>
              rw [cmpKey_lt_trans h1 h2]
              simp [Ordering.then]
          | eq =>
              have he := cmpKey_eq_iff.mp h2
              have h3 : cmpKey k r1 r3 = .lt := by
                rw [← cmpKey_congr_right he]
                exact h1
              rw [h3]
              simp [Ordering.then]
      | eq =>
          have he := cmpKey_eq_iff.mp h1
          rw [h1] at h12
          simp only [Ordering.then] at h12
          cases h2 : cmpKey k r2 r3 with
          | gt =>
              rw [h2] at h23
              simp [Ordering.then] at h23
          | lt =>
              have h3 : cmpKey k r1 r3 = .lt := by
                rw [cmpKey_congr_left he]
                exact h2
              rw [h3]
              simp [Ordering.then]
          | eq =>
              rw [h2] at h23
              simp only [Ordering.then] at h23
              have h3 : cmpKey k r1 r3 = .eq := by
                rw [cmpKey_congr_left he]
                exact h2
              rw [h3]
              simp only [Ordering.then]
              exact ih h12 h23

instance (ks : List OrderKey) : IsTotal Report (reportLE ks) where
  total r1 r2 := by
    unfold reportLE
    by_cases h : cmpKeys ks r1 r2 = .gt
    · right
      rw [cmpKeys_swap, h]
      simp [Ordering.swap]
    · left
      exact h

instance (ks : List OrderKey) : IsTrans Report (reportLE ks) where
  trans _ _ _ := cmpKeys_trans_ne_gt

theorem find_nightreports_ok {q : FindQuery} {db out : List Report}
    (h : find_nightreports q db = .ok out) :
    ∃ ob, computeOrderBy q.order_by = .ok ob ∧
      out = ((List.insertionSort (reportLE (ob.map parseOrderKey))
        (db.filter (reportMatches q))).drop q.offset.toNat).take q.limit.toNat := by
  unfold find_nightreports at h
  by_cases hv : ¬ (q.offset ≥ 0 ∧ q.limit > 1)
  · rw [if_pos hv] at h
    exact absurd h (by simp)
  · rw [if_neg hv] at h
    cases hco : computeOrderBy q.order_by with
    | error e =>
        rw [hco] at h
        simp at h
    | ok ob =>
        rw [hco] at h
        simp only [Except.ok.injEq] at h
        exact ⟨ob, rfl, h.symm⟩

theorem find_nightreports_mem {q : FindQuery} {db out : List Report}
    (h : find_nightreports q db = .ok out) :
    ∀ r ∈ out, r ∈ db ∧ reportMatches q r = Bool.true := by
  obtain ⟨ob, _, hout⟩ := find_nightreports_ok h
  intro r hr
  rw [hout] at hr
  have hsub : (((List.insertionSort (reportLE (ob.map parseOrderKey))
      (db.filter (reportMatches q))).drop q.offset.toNat).take q.limit.toNat).Sublist
      (List.insertionSort (reportLE (ob.map parseOrderKey))
        (db.filter (reportMatches q))) :=
    (List.take_sublist _ _).trans (List.drop_sublist _ _)
  have h1 := hsub.subset hr
  have h2 : r ∈ db.filter (reportMatches q) :=
    (List.perm_insertionSort _ _).mem_iff.mp h1
  exact List.mem_filter.mp h2

theorem find_nightreports_sorted {q : FindQuery} {db out : List Report} {ob : List String}
    (hco : computeOrderBy q.order_by = .ok ob)
    (h : find_nightreports q db = .ok out) :
    out.Pairwise (reportLE (ob.map parseOrderKey)) := by
  obtain ⟨ob2, hco2, hout⟩ := find_nightreports_ok h
  rw [hco] at hco2
  injection hco2 with he
  subst he
  rw [hout]
  have hs := List.sorted_insertionSort (reportLE (ob.map parseOrderKey))
    (db.filter (reportMatches q))
  exact hs.sublist ((List.take_sublist _ _).trans (List.drop_sublist _ _))

theorem find?_map_comm {α : Type} {g : α → α} {p : α → Bool}
    (hg : ∀ x, p (g x) = p x) (l : List α) :
    (l.map g).find? p = (l.find? p).map g := by
  induction l with
  | nil => rfl
  | cons x xs ih =>
      simp only [List.map_cons, List.find?_cons, hg]
      cases hp : p x <;> simp [hp, ih]

theorem map_eq_of_fixed {α : Type} {g : α → α} {l : List α}
    (h : ∀ x ∈ l, g x = x) : l.map g = l := by
  induction l with
  | nil => rfl
  | cons x xs ih =>
      simp only [List.map_cons]
      rw [h x (List.mem_cons_self _ _),
        ih fun y hy => h y (List.mem_cons_of_mem _ hy)]

theorem find?_append_none {α : Type} {p : α → Bool} {l1 l2 : List α}
    (h : l1.find? p = none) : (l1 ++ l2).find? p = l2.find? p := by
  induction l1 with
  | nil => rfl
  | cons x xs ih =>
      cases hp : p x with
      | true =>
          rw [List.find?_cons_of_pos _ hp] at h
          exact absurd h (by simp)
      | false =>
          rw [List.find?_cons_of_neg _ (by simp [hp])] at h
          rw [List.cons_append, List.find?_cons_of_neg _ (by simp [hp])]
          exact ih h

theorem find?_append_some {α : Type} {p : α → Bool} {l1 l2 : List α} {a : α}
    (h : l1.find? p = some a) : (l1 ++ l2).find? p = some a := by
  induction l1 with
  | nil => exact absurd h (by simp)
  | cons x xs ih =>
      cases hp : p x with
      | true =>
          rw [List.find?_cons_of_pos _ hp] at h
          rw [List.cons_append, List.find?_cons_of_pos _ hp]
          exact h
      | false =>
          rw [List.find?_cons_of_neg _ (by simp [hp])] at h
          rw [List.cons_append, List.find?_cons_of_neg _ (by simp [hp])]
          exact ih h

theorem applyDelete_id_eq (i : Nat) (n : Int) (r : Report) :
    (applyDelete i n r).id = r.id := by
  unfold applyDelete
  split <;> rfl

theorem applyInvalidate_id_eq (i : Nat) (n : Int) (r : Report) :
    (applyInvalidate i n r).id = r.id := by
  unfold applyInvalidate
  split <;> rfl

theorem applyDelete_not_matching {i : Nat} {n : Int} {r : Report}
    (h : r.id ≠ i) : applyDelete i n r = r := by
  simp [applyDelete, h]

theorem applyInvalidate_not_matching {i : Nat} {n : Int} {r : Report}
    (h : r.id ≠ i) : applyInvalidate i n r = r := by
  simp [applyInvalidate, h]

theorem applyDelete_idem (i : Nat) (n n2 : Int) (r : Report) :
    applyDelete i n2 (applyDelete i n r) = applyDelete i n r := by
  cases hb : (r.id == i) with
  | false =>
      have h : r.id ≠ i := by simpa using hb
      rw [applyDelete_not_matching h, applyDelete_not_matching h]
  | true =>
      simp [applyDelete, computeIsValid, hb]

/-- Validity invariant realized by the computed column: every stored row's
`is_valid` equals `date_invalidated IS NULL`. -/
def validInv (db : List Report) : Prop :=
  ∀ r ∈ db, r.is_valid = r.date_invalidated.isNone

theorem edit_nightreport_eq (siteId : String) (now : Int) (freshId : Nat)
    (id : Nat) (p : EditParams) (db : List Report) (parent : Report)
    (hp : db.find? (fun r => r.id == id) = some parent)
    (hfresh : ∀ r ∈ db, r.id ≠ freshId) :
    edit_nightreport siteId now freshId id p db =
      .ok (editChild siteId freshId id p parent,
        (db ++ [editChild siteId freshId id p parent]).map
          (applyInvalidate id now)) := by
  have hpid : parent.id = id := by
    simpa using List.find?_some hp
  have hne : freshId ≠ id := by
    have h1 := hfresh parent (List.mem_of_find?_eq_some hp)
    rw [hpid] at h1
    exact fun he => h1 he.symm
  have hfind : ((db ++ [editChild siteId freshId id p parent]).map
      (applyInvalidate id now)).find? (fun r => r.id == freshId) =
      some (editChild siteId freshId id p parent) := by
    rw [find?_map_comm (fun x => by rw [applyInvalidate_id_eq])]
    rw [find?_append_none
      (List.find?_eq_none.mpr fun r hr => by simp [hfresh r hr])]
    rw [List.find?_cons_of_pos _ (by simp [editChild, computeIsValid])]
    rw [Option.map_some']
    rw [applyInvalidate_not_matching hne]
  simp only [edit_nightreport, hp, hfind]

theorem get_after_edit (siteId : String) (now : Int) (freshId : Nat)
    (id : Nat) (p : EditParams) (db : List Report) (parent : Report)
    (hp : db.find? (fun r => r.id == id) = some parent) :
    get_nightreport id ((db ++ [editChild siteId freshId id p parent]).map
        (applyInvalidate id now)) =
      .ok (computeIsValid { parent with date_invalidated := some now }) := by
  have hpid : parent.id = id := by
    simpa using List.find?_some hp
  unfold get_nightreport
  rw [find?_map_comm (fun x => by rw [applyInvalidate_id_eq])]
  rw [find?_append_some hp]
  rw [Option.map_some']
  rw [show applyInvalidate id now parent =
    computeIsValid { parent with date_invalidated := some now } from by
      simp [applyInvalidate, hpid]]

/-- Sample row used to instantiate theorems on concrete inputs. -/
def sampleReport : Report := {
  id := 1
  site_id := "summit"
  telescope := none
  day_obs := 20240101
  summary := "all good"
  telescope_status := none
  weather := some "clear"
  maintel_summary := some "ok"
  auxtel_summary := some "ok"
  confluence_url := "https://example.org/report"
  user_id := "user1"
  user_agent := "pytest"
  date_added := 100
  date_sent := none
  is_valid := Bool.true
  date_invalidated := none
  parent_id := none
  observers_crew := ["alice", "bob"] }

/-- Sample row with a different id, day of observation and validity. -/
def sampleReportB : Report :=
  { sampleReport with
    id := 2
    day_obs := 20231231
    is_valid := Bool.false
    date_invalidated := some 150 }

/-- Sample row sharing `day_obs` with `sampleReport` but with a larger id. -/
def sampleReportC : Report := { sampleReport with id := 3 }

/-- Sample body for `add_nightreport`. -/
def sampleAddParams : AddParams := {
  day_obs := 20240102
  summary := "fine night"
  weather := "windy"
  maintel_summary := "idle"
  auxtel_summary := "observing"
  confluence_url := "https://example.org/new"
  user_id := "user2"
  user_agent := "cli"
  observers_crew := ["carol"] }

/-- C4: `add_nightreport` inserts and returns a report whose `site_id` comes
from server configuration, whose `date_added` is the current time, whose
`date_invalidated` and `parent_id` are null, whose computed `is_valid` is
true, and in which every client-supplied field is echoed exactly. -/
theorem add_nightreport_creates_valid_report (siteId : String) (now : Int)
    (freshId : Nat) (p : AddParams) (db : List Report) :
    ∃ r, add_nightreport siteId now freshId p db = (r, db ++ [r]) ∧
      r.site_id = siteId ∧ r.date_added = now ∧ r.date_invalidated = none ∧
      r.parent_id = none ∧ r.is_valid = Bool.true ∧
      r.day_obs = p.day_obs ∧ r.summary = p.summary ∧
      r.weather = some p.weather ∧ r.maintel_summary = some p.maintel_summary ∧
      r.auxtel_summary = some p.auxtel_summary ∧
      r.confluence_url = p.confluence_url ∧ r.user_id = p.user_id ∧
      r.user_agent = p.user_agent ∧ r.observers_crew = p.observers_crew :=
  ⟨_, rfl, rfl, rfl, rfl, rfl, rfl, rfl, rfl, rfl, rfl, rfl, rfl, rfl, rfl, rfl⟩

/-- C3: `delete_nightreport` sets `date_invalidated` to the current time iff
it is currently null, succeeds as a no-op (preserving the already-set
`date_invalidated`) on an already-invalidated report so that two successive
calls are idempotent, and answers Not-Found with no side effect when no row
has the id. -/
theorem delete_nightreport_invalidate_spec (id : Nat) (now now2 : Int)
    (db : List Report) :
    ((∀ r ∈ db, r.id ≠ id) →
      delete_nightreport id now db = (.error HttpErr.notFound, db)) ∧
    (∀ parent, db.find? (fun r => r.id == id) = some parent →
      ∃ db1, delete_nightreport id now db = (.ok (), db1) ∧
        (parent.date_invalidated = none →
          get_nightreport id db1 =
            .ok (computeIsValid { parent with date_invalidated := some now })) ∧
        (∀ t, parent.date_invalidated = some t →
          ∃ r2, get_nightreport id db1 = .ok r2 ∧
            r2.date_invalidated = some t) ∧
        delete_nightreport id now2 db1 = (.ok (), db1)) := by
  constructor
  · intro h
    have hany : db.any (fun r => r.id == id) = Bool.false := by
      rw [List.any_eq_false]
      intro r hr
      simp [h r hr]
    have hmap : db.map (applyDelete id now) = db :=
      map_eq_of_fixed fun r hr => applyDelete_not_matching (h r hr)
    simp [delete_nightreport, hany, hmap]
  · intro parent hp
    have hpid : parent.id = id := by simpa using List.find?_some hp
    have hmem := List.mem_of_find?_eq_some hp
    have hany : db.any (fun r => r.id == id) = Bool.true := by
      rw [List.any_eq_true]
      exact ⟨parent, hmem, by simp [hpid]⟩
    refine ⟨db.map (applyDelete id now),
      by simp [delete_nightreport, hany], ?_, ?_, ?_⟩
    · intro hnone
      unfold get_nightreport
      rw [find?_map_comm (fun x => by rw [applyDelete_id_eq]), hp,
        Option.map_some']
      rw [show applyDelete id now parent =
        computeIsValid { parent with date_invalidated := some now } from by
          simp [applyDelete, hpid, hnone]]
    · intro t ht
      unfold get_nightreport
      rw [find?_map_comm (fun x => by rw [applyDelete_id_eq]), hp,
        Option.map_some']
      refine ⟨applyDelete id now parent, rfl, ?_⟩
      simp [applyDelete, hpid, ht, computeIsValid]
    · have hmap2 : (db.map (applyDelete id now)).map (applyDelete id now2) =
          db.map (applyDelete id now) := by
        rw [List.map_map]
        exact List.map_congr_left fun r _ => applyDelete_idem id now now2 r
      have hany2 : (db.map (applyDelete id now)).any
          (fun r => r.id == id) = Bool.true := by
        rw [List.any_eq_true]
        exact ⟨applyDelete id now parent, List.mem_map_of_mem _ hmem, by
          rw [applyDelete_id_eq]
          simp [hpid]⟩
      simp [delete_nightreport, hany2, hmap2]

/-- Witness for C3: the Not-Found branch on an unknown id and the success
branch on `sampleReport`, both at concrete inputs. -/
theorem delete_nightreport_invalidate_spec_witness :
    delete_nightreport 99 200 [sampleReport] =
      (.error HttpErr.notFound, [sampleReport]) ∧
    ∃ db1, delete_nightreport 1 200 [sampleReport] = (.ok (), db1) ∧
      (sampleReport.date_invalidated = none →
        get_nightreport 1 db1 =
          .ok (computeIsValid { sampleReport with
            date_invalidated := some 200 })) ∧
      (∀ t, sampleReport.date_invalidated = some t →
        ∃ r2, get_nightreport 1 db1 = .ok r2 ∧
          r2.date_invalidated = some t) ∧
      delete_nightreport 1 300 db1 = (.ok (), db1) :=
  ⟨(delete_nightreport_invalidate_spec 99 200 300 [sampleReport]).1 (by decide),
    (delete_nightreport_invalidate_spec 1 200 300 [sampleReport]).2
      sampleReport (by rfl)⟩

/-- C1: `edit_nightreport` creates a new row copying the parent's fields
except `id`, `is_valid` and `date_invalidated`, with `site_id` overridden by
the server's configured site id, every supplied body field overriding the
copied value, and `parent_id` equal to the parent's id; the new row is
returned, and afterwards reading the parent shows `is_valid = false` with a
non-null `date_invalidated`. -/
theorem edit_nightreport_versions_spec (siteId : String) (now : Int)
    (freshId : Nat) (id : Nat) (p : EditParams) (db : List Report)
    (parent : Report)
    (hp : db.find? (fun r => r.id == id) = some parent)
    (hfresh : ∀ r ∈ db, r.id ≠ freshId) :
    ∃ child db2,
      edit_nightreport siteId now freshId id p db = .ok (child, db2) ∧
      child.id = freshId ∧
      child.site_id = siteId ∧
      child.parent_id = some id ∧
      child.is_valid = Bool.true ∧
      child.date_invalidated = none ∧
      (∀ v, p.telescope = some v → child.telescope = some v) ∧
      (p.telescope = none → child.telescope = parent.telescope) ∧
      (∀ v, p.day_obs = some v → child.day_obs = v) ∧
      (p.day_obs = none → child.day_obs = parent.day_obs) ∧
      (∀ v, p.summary = some v → child.summary = v) ∧
      (p.summary = none → child.summary = parent.summary) ∧
      (∀ v, p.telescope_status = some v → child.telescope_status = some v) ∧
      (p.telescope_status = none →
        child.telescope_status = parent.telescope_status) ∧
      (∀ v, p.confluence_url = some v → child.confluence_url = v) ∧
      (p.confluence_url = none →
        child.confluence_url = parent.confluence_url) ∧
      (∀ v, p.user_id = some v → child.user_id = v) ∧
      (p.user_id = none → child.user_id = parent.user_id) ∧
      (∀ v, p.user_agent = some v → child.user_agent = v) ∧
      (p.user_agent = none → child.user_agent = parent.user_agent) ∧
      child.weather = parent.weather ∧
      child.maintel_summary = parent.maintel_summary ∧
      child.auxtel_summary = parent.auxtel_summary ∧
      child.date_sent = parent.date_sent ∧
      child.date_added = parent.date_added ∧
      child.observers_crew = parent.observers_crew ∧
      ∃ parent2, get_nightreport id db2 = .ok parent2 ∧
        parent2.is_valid = Bool.false ∧
        parent2.date_invalidated = some now := by
  refine ⟨editChild siteId freshId id p parent,
    (db ++ [editChild siteId freshId id p parent]).map (applyInvalidate id now),
    edit_nightreport_eq siteId now freshId id p db parent hp hfresh,
    rfl, rfl, rfl, rfl, rfl,
    ?_, ?_, ?_, ?_, ?_, ?_, ?_, ?_, ?_, ?_, ?_, ?_, ?_, ?_,
    rfl, rfl, rfl, rfl, rfl, rfl,
    ⟨computeIsValid { parent with date_invalidated := some now },
      get_after_edit siteId now freshId id p db parent hp, rfl, rfl⟩⟩ <;>
  first
  | (intro v hv
     simp [editChild, computeIsValid, overrideOpt, hv])
  | (intro hv
     simp [editChild, computeIsValid, overrideOpt, hv])

/-- Witness for C1: editing `sampleReport`, overriding only the summary. -/
theorem edit_nightreport_versions_spec_witness :
    ∃ child db2,
      edit_nightreport "base" 200 7 1 { summary := some "revised" }
        [sampleReport] = .ok (child, db2) ∧
      child.id = 7 ∧
      child.site_id = "base" ∧
      child.parent_id = some 1 ∧
      child.is_valid = Bool.true ∧
      child.date_invalidated = none ∧
      (∀ v, ({ summary := some "revised" } : EditParams).telescope = some v →
        child.telescope = some v) ∧
      (({ summary := some "revised" } : EditParams).telescope = none →
        child.telescope = sampleReport.telescope) ∧
      (∀ v, ({ summary := some "revised" } : EditParams).day_obs = some v →
        child.day_obs = v) ∧
      (({ summary := some "revised" } : EditParams).day_obs = none →
        child.day_obs = sampleReport.day_obs) ∧
      (∀ v, ({ summary := some "revised" } : EditParams).summary = some v →
        child.summary = v) ∧
      (({ summary := some "revised" } : EditParams).summary = none →
        child.summary = sampleReport.summary) ∧
      (∀ v, ({ summary := some "revised" } : EditParams).telescope_status =
          some v → child.telescope_status = some v) ∧
      (({ summary := some "revised" } : EditParams).telescope_status = none →
        child.telescope_status = sampleReport.telescope_status) ∧
      (∀ v, ({ summary := some "revised" } : EditParams).confluence_url =
          some v → child.confluence_url = v) ∧
      (({ summary := some "revised" } : EditParams).confluence_url = none →
        child.confluence_url = sampleReport.confluence_url) ∧
      (∀ v, ({ summary := some "revised" } : EditParams).user_id = some v →
        child.user_id = v) ∧
      (({ summary := some "revised" } : EditParams).user_id = none →
        child.user_id = sampleReport.user_id) ∧
      (∀ v, ({ summary := some "revised" } : EditParams).user_agent = some v →
        child.user_agent = v) ∧
      (({ summary := some "revised" } : EditParams).user_agent = none →
        child.user_agent = sampleReport.user_agent) ∧
      child.weather = sampleReport.weather ∧
      child.maintel_summary = sampleReport.maintel_summary ∧
      child.auxtel_summary = sampleReport.auxtel_summary ∧
      child.date_sent = sampleReport.date_sent ∧
      child.date_added = sampleReport.date_added ∧
      child.observers_crew = sampleReport.observers_crew ∧
      ∃ parent2, get_nightreport 1 db2 = .ok parent2 ∧
        parent2.is_valid = Bool.false ∧
        parent2.date_invalidated = some 200 :=
  edit_nightreport_versions_spec "base" 200 7 1 { summary := some "revised" }
    [sampleReport] sampleReport (by rfl) (by decide)

/-- C10: `edit_nightreport` can override only `telescope`, `day_obs`,
`summary`, `telescope_status`, `confluence_url`, `site_id`, `user_id` and
`user_agent`; the child row's `weather`, `maintel_summary`,
`auxtel_summary`, `observers_crew` and `date_sent` always equal the
parent's, and a client-supplied `site_id` is silently ignored in favor of
the server's configured site id. -/
theorem edit_nightreport_frame_spec (siteId : String) (now : Int)
    (freshId : Nat) (id : Nat) (p : EditParams) (db : List Report)
    (parent : Report)
    (hp : db.find? (fun r => r.id == id) = some parent)
    (hfresh : ∀ r ∈ db, r.id ≠ freshId) :
    ∃ child db2,
      edit_nightreport siteId now freshId id p db = .ok (child, db2) ∧
      child.weather = parent.weather ∧
      child.maintel_summary = parent.maintel_summary ∧
      child.auxtel_summary = parent.auxtel_summary ∧
      child.observers_crew = parent.observers_crew ∧
      child.date_sent = parent.date_sent ∧
      child.site_id = siteId ∧
      ∀ s : Option String,
        edit_nightreport siteId now freshId id { p with site_id := s } db =
          edit_nightreport siteId now freshId id p db := by
  refine ⟨_, _, edit_nightreport_eq siteId now freshId id p db parent hp hfresh,
    rfl, rfl, rfl, rfl, rfl, rfl, ?_⟩
  intro s
  rw [edit_nightreport_eq siteId now freshId id { p with site_id := s } db
      parent hp hfresh,
    edit_nightreport_eq siteId now freshId id p db parent hp hfresh]
  cases p
  rfl

/-- Witness for C10: editing `sampleReport` while supplying a bogus
`site_id`. -/
theorem edit_nightreport_frame_spec_witness :
    ∃ child db2,
      edit_nightreport "summit" 300 9 1 { site_id := some "elsewhere" }
        [sampleReport] = .ok (child, db2) ∧
      child.weather = sampleReport.weather ∧
      child.maintel_summary = sampleReport.maintel_summary ∧
      child.auxtel_summary = sampleReport.auxtel_summary ∧
      child.observers_crew = sampleReport.observers_crew ∧
      child.date_sent = sampleReport.date_sent ∧
      child.site_id = "summit" ∧
      ∀ s : Option String,
        edit_nightreport "summit" 300 9 1
          { ({ site_id := some "elsewhere" } : EditParams) with site_id := s }
          [sampleReport] =
        edit_nightreport "summit" 300 9 1 { site_id := some "elsewhere" }
          [sampleReport] :=
  edit_nightreport_frame_spec "summit" 300 9 1 { site_id := some "elsewhere" }
    [sampleReport] sampleReport (by rfl) (by decide)

/-- C2 (behaviour found in the code): editing `sampleReport` at time 200
returns a child whose `date_added` equals the parent's `date_added` (100) —
the INSERT never overrides the copied value with the current time — while
the parent's `date_invalidated` is set to the edit time 200. -/
theorem edit_child_copies_parent_date_added :
    ((edit_nightreport "summit" 200 2 1 {} [sampleReport]).toOption.map
      (fun x => x.fst.date_added)) = some sampleReport.date_added ∧
    sampleReport.date_added = 100 ∧
    ((edit_nightreport "summit" 200 2 1 {} [sampleReport]).toOption.bind
      (fun x => (get_nightreport 1 x.snd).toOption.map
        (fun r => r.date_invalidated))) = some (some 200) := by
  decide

theorem computeIsValid_valid (r : Report) :
    (computeIsValid r).is_valid = (computeIsValid r).date_invalidated.isNone :=
  rfl

theorem editChild_valid (siteId : String) (freshId : Nat) (id : Nat)
    (p : EditParams) (parent : Report) :
    (editChild siteId freshId id p parent).is_valid =
      (editChild siteId freshId id p parent).date_invalidated.isNone :=
  rfl

/-- C9: after every operation, every stored row's `is_valid` equals
`date_invalidated IS NULL` — the computed column is refreshed by the
database on every write and no operation sets it directly — and reads
(point lookups and queries) only return stored rows, which therefore
satisfy the same equation. -/
theorem is_valid_always_computed (siteId : String) (now : Int)
    (freshId : Nat) (rid : Nat) (pa : AddParams) (pe : EditParams)
    (q : FindQuery) (db : List Report) (hdb : validInv db) :
    validInv (add_nightreport siteId now freshId pa db).snd ∧
    validInv (delete_nightreport rid now db).snd ∧
    (∀ c db2, edit_nightreport siteId now freshId rid pe db = .ok (c, db2) →
      validInv db2) ∧
    (∀ r, get_nightreport rid db = .ok r →
      r.is_valid = r.date_invalidated.isNone) ∧
    (∀ out, find_nightreports q db = .ok out →
      ∀ r ∈ out, r.is_valid = r.date_invalidated.isNone) := by
  refine ⟨?_, ?_, ?_, ?_, ?_⟩
  · intro r hr
    rcases List.mem_append.mp hr with h | h
    · exact hdb r h
    · rw [List.mem_singleton.mp h]
      exact computeIsValid_valid _
  · have hsnd : (delete_nightreport rid now db).snd =
        db.map (applyDelete rid now) := by
      unfold delete_nightreport
      split <;> rfl
    rw [hsnd]
    intro r hr
    rcases List.mem_map.mp hr with ⟨r0, hr0, he⟩
    subst he
    unfold applyDelete
    split
    · exact computeIsValid_valid _
    · exact hdb r0 hr0
  · intro c db2 hok
    unfold edit_nightreport at hok
    cases hfind : db.find? (fun r => r.id == rid) with
    | none =>
        rw [hfind] at hok
        exact absurd hok (by simp)
    | some parent =>
        rw [hfind] at hok
        simp only [] at hok
        cases hfind2 : ((db ++ [editChild siteId freshId rid pe parent]).map
            (applyInvalidate rid now)).find? (fun r => r.id == freshId) with
        | none =>
            rw [hfind2] at hok
            exact absurd hok (by simp)
        | some row =>
            rw [hfind2] at hok
            simp only [Except.ok.injEq, Prod.mk.injEq] at hok
            rw [← hok.2]
            intro r hr
            rcases List.mem_map.mp hr with ⟨r0, hr0, he⟩
            subst he
            unfold applyInvalidate
            split
            · exact computeIsValid_valid _
            · rcases List.mem_append.mp hr0 with h | h
              · exact hdb r0 h
              · rw [List.mem_singleton.mp h]
                exact editChild_valid _ _ _ _ _
  · intro r hok
    unfold get_nightreport at hok
    cases hfind : db.find? (fun r => r.id == rid) with
    | none =>
        rw [hfind] at hok
        exact absurd hok (by simp)
    | some r0 =>
        rw [hfind] at hok
        simp only [Except.ok.injEq] at hok
        rw [← hok]
        exact hdb r0 (List.mem_of_find?_eq_some hfind)
  · intro out hok r hr
    exact hdb r (find_nightreports_mem hok r hr).1

/-- Witness for C9: the invariant holds across all five operations on a
concrete table. -/
theorem is_valid_always_computed_witness :
    validInv (add_nightreport "summit" 500 4 sampleAddParams
      [sampleReport, sampleReportB]).snd ∧
    validInv (delete_nightreport 1 500 [sampleReport, sampleReportB]).snd ∧
    (∀ c db2, edit_nightreport "summit" 500 4 1 {}
        [sampleReport, sampleReportB] = .ok (c, db2) → validInv db2) ∧
    (∀ r, get_nightreport 1 [sampleReport, sampleReportB] = .ok r →
      r.is_valid = r.date_invalidated.isNone) ∧
    (∀ out, find_nightreports {} [sampleReport, sampleReportB] = .ok out →
      ∀ r ∈ out, r.is_valid = r.date_invalidated.isNone) :=
  is_valid_always_computed "summit" 500 4 1 sampleAddParams {} {}
    [sampleReport, sampleReportB] (by unfold validInv; decide)

/-- C5: with no filter parameters supplied, the only WHERE condition built
is the default `is_valid = true` one, so exactly the valid reports are
selected; with `is_valid = either` and no other filters, no condition is
built and every report is selected.  (The bounds keep the default page size
from truncating the result.) -/
theorem find_default_is_valid_filter (db : List Report)
    (h1 : (db.filter fun r => r.is_valid).length ≤ 50)
    (h2 : db.length ≤ 50) :
    ∃ out all,
      find_nightreports {} db = .ok out ∧
      find_nightreports { is_valid := TriState.either } db = .ok all ∧
      (∀ r, r ∈ out ↔ r ∈ db ∧ r.is_valid = Bool.true) ∧
      (∀ r, r ∈ all ↔ r ∈ db) := by
  have hm : ∀ r : Report, reportMatches ({} : FindQuery) r = r.is_valid := by
    intro r
    simp [reportMatches]
  have hm2 : ∀ r : Report,
      reportMatches ({ is_valid := TriState.either } : FindQuery) r =
        Bool.true := by
    intro r
    simp [reportMatches]
  have hperm := List.perm_insertionSort
    (reportLE ((["id"] : List String).map parseOrderKey))
    (db.filter (reportMatches ({} : FindQuery)))
  have hperm2 := List.perm_insertionSort
    (reportLE ((["id"] : List String).map parseOrderKey))
    (db.filter (reportMatches ({ is_valid := TriState.either } : FindQuery)))
  have hlen : (List.insertionSort
      (reportLE ((["id"] : List String).map parseOrderKey))
      (db.filter (reportMatches ({} : FindQuery)))).length ≤ 50 := by
    rw [hperm.length_eq, List.filter_congr fun r _ => hm r]
    exact h1
  have hlen2 : (List.insertionSort
      (reportLE ((["id"] : List String).map parseOrderKey))
      (db.filter (reportMatches
        ({ is_valid := TriState.either } : FindQuery)))).length ≤ 50 := by
    rw [hperm2.length_eq, List.filter_congr fun r _ => hm2 r,
      List.filter_true]
    exact h2
  refine ⟨(List.insertionSort
      (reportLE ((["id"] : List String).map parseOrderKey))
      (db.filter (reportMatches ({} : FindQuery)))).take 50,
    (List.insertionSort
      (reportLE ((["id"] : List String).map parseOrderKey))
      (db.filter (reportMatches
        ({ is_valid := TriState.either } : FindQuery)))).take 50,
    rfl, rfl, ?_, ?_⟩
  · intro r
    rw [List.take_of_length_le hlen, hperm.mem_iff, List.mem_filter]
    constructor
    · intro ⟨ha, hb⟩
      exact ⟨ha, by rw [← hm r]; exact hb⟩
    · intro ⟨ha, hb⟩
      exact ⟨ha, by rw [hm r]; exact hb⟩
  · intro r
    rw [List.take_of_length_le hlen2, hperm2.mem_iff, List.mem_filter]
    constructor
    · intro ⟨ha, _⟩
      exact ha
    · intro ha
      exact ⟨ha, hm2 r⟩

/-- Witness for C5: a two-row table with one valid and one invalid row. -/
theorem find_default_is_valid_filter_witness :
    ∃ out all,
      find_nightreports {} [sampleReport, sampleReportB] = .ok out ∧
      find_nightreports { is_valid := TriState.either }
        [sampleReport, sampleReportB] = .ok all ∧
      (∀ r, r ∈ out ↔ r ∈ [sampleReport, sampleReportB] ∧
        r.is_valid = Bool.true) ∧
      (∀ r, r ∈ all ↔ r ∈ [sampleReport, sampleReportB]) :=
  find_default_is_valid_filter [sampleReport, sampleReportB]
    (by decide) (by decide)

/-- C6: every supplied `min_<field>` filter is the inclusive condition
`column >= value` and every `max_<field>` filter the exclusive condition
`column < value` (for `day_obs`, `date_added`, `date_sent`; the nullable
`date_sent` matches no bound when NULL); consequently a query with
`min_day_obs = X` and `max_day_obs = X` returns zero reports for any X. -/
theorem find_range_filter_semantics :
    (∀ (v : Int) (r : Report),
      reportMatches { is_valid := TriState.either, min_day_obs := some v } r =
        decide (r.day_obs ≥ v)) ∧
    (∀ (v : Int) (r : Report),
      reportMatches { is_valid := TriState.either, max_day_obs := some v } r =
        decide (r.day_obs < v)) ∧
    (∀ (v : Int) (r : Report),
      reportMatches { is_valid := TriState.either, min_date_added := some v } r =
        decide (r.date_added ≥ v)) ∧
    (∀ (v : Int) (r : Report),
      reportMatches { is_valid := TriState.either, max_date_added := some v } r =
        decide (r.date_added < v)) ∧
    (∀ (v : Int) (r : Report),
      reportMatches { is_valid := TriState.either, min_date_sent := some v } r =
        optGe r.date_sent v) ∧
    (∀ (v : Int) (r : Report),
      reportMatches { is_valid := TriState.either, max_date_sent := some v } r =
        optLt r.date_sent v) ∧
    (∀ (X : Int) (db : List Report),
      find_nightreports { min_day_obs := some X, max_day_obs := some X } db =
        .ok []) := by
  refine ⟨?_, ?_, ?_, ?_, ?_, ?_, ?_⟩
  · intro v r
    simp [reportMatches]
  · intro v r
    simp [reportMatches]
  · intro v r
    simp [reportMatches]
  · intro v r
    simp [reportMatches]
  · intro v r
    simp [reportMatches]
  · intro v r
    simp [reportMatches]
  · intro X db
    have hemp : db.filter
        (reportMatches { min_day_obs := some X, max_day_obs := some X }) =
        [] := by
      rw [List.filter_eq_nil_iff]
      intro r hr
      simp only [reportMatches, Bool.true_and, Bool.and_eq_true,
        decide_eq_true_eq]
      rintro ⟨⟨h1, h2⟩, -⟩
      omega
    show Except.ok _ = _
    rw [hemp]
    rfl

/-- C8 (behaviour found in the code): FastAPI validates `limit` with
`gt=1`, so a request with `limit = 1` is rejected even though the intended
bound is `limit > 0`; `limit = 2`, the defaults, and `offset = 0` are
accepted, and `offset = -1` is rejected. -/
theorem find_pagination_validation :
    find_nightreports { limit := 1 } [] = .error HttpErr.validation ∧
    find_nightreports { limit := 2 } [] = .ok [] ∧
    find_nightreports { offset := -1 } [] = .error HttpErr.validation ∧
    find_nightreports {} [] = .ok [] :=
  ⟨rfl, rfl, rfl, rfl⟩

theorem find_two_key_sorted {q : FindQuery} {db out : List Report}
    {f : String} {d : Bool} {ob : List String}
    (hco : computeOrderBy q.order_by = .ok ob)
    (hkeys : ob.map parseOrderKey =
      [{ field := f, desc := d }, { field := "id", desc := Bool.false }])
    (hout : find_nightreports q db = .ok out) :
    ∀ (i : Nat) (hi : i + 1 < out.length),
      cmpKey { field := f, desc := d } (out.get ⟨i, Nat.lt_of_succ_lt hi⟩)
          (out.get ⟨i + 1, hi⟩) = .lt ∨
      (fieldVal f (out.get ⟨i, Nat.lt_of_succ_lt hi⟩) =
          fieldVal f (out.get ⟨i + 1, hi⟩) ∧
        (out.get ⟨i, Nat.lt_of_succ_lt hi⟩).id ≤
          (out.get ⟨i + 1, hi⟩).id) := by
  intro i hi
  have hpw := find_nightreports_sorted hco hout
  rw [hkeys] at hpw
  have hle := List.pairwise_iff_get.mp hpw ⟨i, Nat.lt_of_succ_lt hi⟩
    ⟨i + 1, hi⟩ (by exact Nat.lt_succ_self i)
  set r1 := out.get ⟨i, Nat.lt_of_succ_lt hi⟩
  set r2 := out.get ⟨i + 1, hi⟩
  unfold reportLE at hle
  cases h1 : cmpKey { field := f, desc := d } r1 r2 with
  | lt => exact Or.inl rfl
  | gt =>
      exfalso
      apply hle
      simp only [cmpKeys]
      rw [h1]
      rfl
  | eq =>
      right
      refine ⟨cmpKey_eq_iff.mp h1, ?_⟩
      have hle2 : cmpKey { field := "id", desc := Bool.false } r1 r2 ≠ .gt := by
        intro h2
        apply hle
        simp only [cmpKeys]
        rw [h1, h2]
        rfl
      by_contra hgt
      push_neg at hgt
      apply hle2
      show cmpFV (fieldVal "id" r1) (fieldVal "id" r2) = .gt
      apply cmpFV_gt_iff.mpr
      show fvltB (FieldVal.fint (Int.ofNat r2.id))
        (FieldVal.fint (Int.ofNat r1.id)) = Bool.true
      simp [fvltB]
      omega

/-- C7: when the caller's `order_by` is a single field other than `id`, the
engine appends an ascending `id` tie-break, the resulting two-key
comparison is total, non-null column values sort before NULL, and in the
returned page every adjacent pair is non-decreasing on the primary field
(non-increasing for a "-"-prefixed field) with ties broken by
non-decreasing id. -/
theorem find_order_by_appends_id_tiebreak (db : List Report) (f : String)
    (d : Bool) (q : FindQuery) (out : List Report)
    (hf : f ∈ NIGHTREPORT_FIELDS) (hid : f ≠ "id")
    (hq : q.order_by = some [if d then "-" ++ f else f])
    (hout : find_nightreports q db = .ok out) :
    computeOrderBy q.order_by = .ok [(if d then "-" ++ f else f), "id"] ∧
    (∀ v : FieldVal, v ≠ FieldVal.fnull → fvltB v FieldVal.fnull = Bool.true) ∧
    (∀ r1 r2 : Report,
      reportLE [⟨f, d⟩, ⟨"id", Bool.false⟩] r1 r2 ∨
      reportLE [⟨f, d⟩, ⟨"id", Bool.false⟩] r2 r1) ∧
    ∀ (i : Nat) (hi : i + 1 < out.length),
      (d = Bool.false →
        fvltB (fieldVal f (out.get ⟨i, Nat.lt_of_succ_lt hi⟩))
            (fieldVal f (out.get ⟨i + 1, hi⟩)) = Bool.true ∨
        (fieldVal f (out.get ⟨i, Nat.lt_of_succ_lt hi⟩) =
            fieldVal f (out.get ⟨i + 1, hi⟩) ∧
          (out.get ⟨i, Nat.lt_of_succ_lt hi⟩).id ≤
            (out.get ⟨i + 1, hi⟩).id)) ∧
      (d = Bool.true →
        fvltB (fieldVal f (out.get ⟨i + 1, hi⟩))
            (fieldVal f (out.get ⟨i, Nat.lt_of_succ_lt hi⟩)) = Bool.true ∨
        (fieldVal f (out.get ⟨i, Nat.lt_of_succ_lt hi⟩) =
            fieldVal f (out.get ⟨i + 1, hi⟩) ∧
          (out.get ⟨i, Nat.lt_of_succ_lt hi⟩).id ≤
            (out.get ⟨i + 1, hi⟩).id)) := by
  have hco : computeOrderBy q.order_by =
      .ok [(if d then "-" ++ f else f), "id"] := by
    rw [hq]
    fin_cases hf <;> cases d <;>
      first
      | exact absurd rfl hid
      | decide
  have hkeys : ([(if d then "-" ++ f else f), "id"]).map parseOrderKey =
      [{ field := f, desc := d }, { field := "id", desc := Bool.false }] := by
    fin_cases hf <;> cases d <;>
      first
      | exact absurd rfl hid
      | decide
  refine ⟨hco, ?_, ?_, ?_⟩
  · intro v hv
    cases v
    · rfl
    · rfl
    · rfl
    · exact absurd rfl hv
  · intro r1 r2
    exact total_of (reportLE [⟨f, d⟩, ⟨"id", Bool.false⟩]) r1 r2
  · have hadj := find_two_key_sorted hco hkeys hout
    intro i hi
    refine ⟨?_, ?_⟩
    · intro hd
      subst hd
      rcases hadj i hi with h | h
      · left
        have h2 : cmpFV (fieldVal f (out.get ⟨i, Nat.lt_of_succ_lt hi⟩))
            (fieldVal f (out.get ⟨i + 1, hi⟩)) = .lt := h
        exact cmpFV_lt_iff.mp h2
      · right
        exact h
    · intro hd
      subst hd
      rcases hadj i hi with h | h
      · left
        have h2 : cmpFV (fieldVal f (out.get ⟨i + 1, hi⟩))
            (fieldVal f (out.get ⟨i, Nat.lt_of_succ_lt hi⟩)) = .lt := h
        exact cmpFV_lt_iff.mp h2
      · right
        exact h

/-- Witness for C7: ordering three concrete rows by `day_obs` with the
implicit `id` tie-break. -/
theorem find_order_by_appends_id_tiebreak_witness :
    computeOrderBy (some ["day_obs"]) = .ok ["day_obs", "id"] :=
  (find_order_by_appends_id_tiebreak
    [sampleReport, sampleReportB, sampleReportC] "day_obs" Bool.false
    { order_by := some ["day_obs"], is_valid := TriState.either }
    [sampleReportB, sampleReport, sampleReportC]
    (by decide) (by decide) rfl (by rfl)).1
